import Mathlib

/-!
Shallow embedding of the packet-decode program (src/index.js): JavaScript
32-bit bitwise arithmetic, the hex/address formatting helpers, the three
header parsers, and the decode pipeline of the main function.

JavaScript numeric conventions modelled here:
  - bitwise operators coerce operands with ToInt32/ToUint32 and produce a
    signed 32-bit result (so a result with bit 31 set is negative);
  - Array.prototype.slice with a single argument clamps: an offset past the
    end yields an empty array, a negative offset counts from the end;
  - String.prototype.match with the global regex of hexToBytes returns null
    (modelled as none) when there is no match, and the subsequent .map then
    throws a TypeError (so the whole call is modelled as Option);
  - parseInt(s, 16) skips leading whitespace, reads an optional sign and an
    optional 0x prefix, then parses the longest hex-digit prefix, returning
    NaN (modelled as none) when that prefix is empty.
A RawBuffer (the spec name for the parsers' input) is a list of 8-bit
unsigned values, modelled as List Nat together with the hypothesis that
every element is below 256.
-/

set_option maxRecDepth 100000

namespace PacketDecode

/-- The number 2 to the 32, the modulus of JavaScript 32-bit coercions. -/
def two32 : Nat := 4294967296

/-- The number 2 to the 31, the signed boundary of 32-bit coercions. -/
def two31 : Nat := 2147483648

/-- JavaScript ToUint32: the unsigned 32-bit residue of an integer. -/
def toUint32 (i : Int) : Nat := (i % (two32 : Int)).toNat

/-- Reinterpret an unsigned 32-bit bit pattern as a signed two's-complement
32-bit value, the result convention of every JavaScript bitwise operator. -/
def asInt32 (n : Nat) : Int :=
  if n % two32 < two31 then ((n % two32 : Nat) : Int)
  else ((n % two32 : Nat) : Int) - (two32 : Int)

/-- JavaScript ToInt32 of an integer. -/
def toInt32 (i : Int) : Int := asInt32 (toUint32 i)

/-- JavaScript left shift a << k. -/
def jsShl (a : Int) (k : Nat) : Int := asInt32 (toUint32 a <<< (k % 32))

/-- JavaScript signed right shift a >> k: an arithmetic shift of the int32
value, which is floor division by a power of two. -/
def jsShr (a : Int) (k : Nat) : Int := Int.fdiv (toInt32 a) ((2 : Int) ^ (k % 32))

/-- JavaScript bitwise and. -/
def jsAnd (a b : Int) : Int := asInt32 (Nat.land (toUint32 a) (toUint32 b))

/-- JavaScript bitwise or. -/
def jsOr (a b : Int) : Int := asInt32 (Nat.lor (toUint32 a) (toUint32 b))

/-- JavaScript Array.prototype.slice(start) on a byte array: a negative
start counts from the end (clamped at 0), a start past the end yields []. -/
def jsSliceFrom (l : List Nat) (start : Int) : List Nat :=
  if start < 0 then l.drop (((l.length : Int) + start).toNat)
  else l.drop start.toNat

/-- Indexing bytes[i] as the JavaScript number it evaluates to; every use in
the source is guarded by a length check that keeps i in bounds. -/
def bget (l : List Nat) (i : Nat) : Int := ((l.getD i 0 : Nat) : Int)

/-- Lowercase hexadecimal digit character, as produced by Number.prototype
toString with radix 16. -/
def hexChar (n : Nat) : Char :=
  if n < 10 then Char.ofNat (48 + n) else Char.ofNat (87 + n)

/-- Hexadecimal digits of n, least significant first. The fuel argument,
always called with fuel n, keeps the recursion structural; it suffices
because the value shrinks by a factor of 16 every step. -/
def toHexRevAux : Nat → Nat → List Char
  | _, 0 => []
  | 0, _ + 1 => []
  | fuel + 1, n + 1 => hexChar ((n + 1) % 16) :: toHexRevAux fuel ((n + 1) / 16)

/-- Hexadecimal digits of n, least significant first. -/
def toHexRev (n : Nat) : List Char := toHexRevAux n n

/-- JavaScript n.toString(16) for a nonnegative integer. -/
def jsToString16 (n : Nat) : String :=
  if n = 0 then "0" else String.mk (toHexRev n).reverse

/-- JavaScript String.prototype.padStart(n, c). -/
def padStart (s : String) (n : Nat) (c : Char) : String :=
  String.mk (List.replicate (n - s.data.length) c ++ s.data)

/-- One byte rendered as b.toString(16).padStart(2, c0).toUpperCase(), the
function bytesToMAC maps over its input. -/
def hexPairUpper (b : Nat) : String :=
  String.mk ((padStart (jsToString16 b) 2 '0').data.map Char.toUpper)

/-- bytesToMAC from src/index.js: two uppercase hex digits per byte, joined
with colons. -/
def bytesToMAC (bytes : List Nat) : String :=
  String.intercalate ":" (bytes.map hexPairUpper)

/-- bytesToIP from src/index.js: decimal bytes joined with dots. -/
def bytesToIP (bytes : List Nat) : String :=
  String.intercalate "." (bytes.map (fun b => toString b))

/-- Line terminators, the characters the regex dot of hexToBytes does not
match. -/
def isLineTerm (c : Char) : Bool :=
  c == '\n' || c == '\r' || c == Char.ofNat 0x2028 || c == Char.ofNat 0x2029

/-- Whitespace characters as matched by the backslash-s class used by the
main function's replace call and skipped by parseInt. -/
def isJsSpace (c : Char) : Bool :=
  c == ' ' || c == '\t' || c == '\n' || c == '\r' || c == '\x0b' || c == '\x0c'

/-- The whitespace-stripping replace call of the main function. -/
def stripSpaces (s : String) : String :=
  String.mk (s.data.filter (fun c => !isJsSpace c))

/-- Global matching of the regex dot-brace-1-comma-2 of hexToBytes: greedy
chunks of one or two non-line-terminator characters, skipping positions
where the dot cannot match. -/
def chunk12 : List Char → List String
  | [] => []
  | c :: rest =>
    if isLineTerm c then chunk12 rest
    else
      match rest with
      | [] => [String.mk [c]]
      | c2 :: rest2 =>
        -- When c2 is a line terminator the match is just [c]; the scan then
        -- resumes at c2, which the dot can never match, so it is skipped.
        if isLineTerm c2 then String.mk [c] :: chunk12 rest2
        else String.mk [c, c2] :: chunk12 rest2

/-- String.prototype.match with the global regex of hexToBytes: null (none)
when there is no match anywhere in the string. -/
def jsMatchChunks (s : String) : Option (List String) :=
  match chunk12 s.data with
  | [] => none
  | l => some l

/-- Value of one hexadecimal digit character, none for a non-digit. -/
def hexDigitVal (c : Char) : Option Nat :=
  if '0' ≤ c ∧ c ≤ '9' then some (c.toNat - 48)
  else if 'a' ≤ c ∧ c ≤ 'f' then some (c.toNat - 87)
  else if 'A' ≤ c ∧ c ≤ 'F' then some (c.toNat - 55)
  else none

/-- JavaScript parseInt(s, 16): skip leading whitespace, optional sign,
optional 0x or 0X prefix, then the longest hex-digit prefix; NaN (none)
when that prefix is empty. -/
def jsParseIntHex (s : String) : Option Int :=
  let cs := s.data.dropWhile isJsSpace
  let sign : Int := match cs with | '-' :: _ => -1 | _ => 1
  let cs1 := match cs with | '-' :: t => t | '+' :: t => t | _ => cs
  let cs2 := match cs1 with
    | '0' :: 'x' :: t => t
    | '0' :: 'X' :: t => t
    | _ => cs1
  let digits := cs2.takeWhile (fun c => (hexDigitVal c).isSome)
  if digits.isEmpty then none
  else some (sign * ((digits.foldl (fun a c => 16 * a + (hexDigitVal c).getD 0) 0 : Nat) : Int))

/-- hexToBytes from src/index.js: hex.match of the global chunk regex, then
map parseInt base 16 over the chunks. The outer none models the TypeError
thrown by calling .map on the null returned by .match; an inner none models
a NaN entry produced by parseInt on a non-hex chunk. -/
def hexToBytes (hex : String) : Option (List (Option Int)) :=
  (jsMatchChunks hex).map (fun l => l.map jsParseIntHex)

/-- Result record of parseEthernetFrame. -/
structure EthernetFrame where
  destMAC : String
  srcMAC : String
  type : Int
  data : List Nat
deriving DecidableEq

/-- Result record of parseIPv4Packet. -/
structure IPv4Packet where
  version : Int
  ihl : Int
  dscp : Int
  ecn : Int
  totalLength : Int
  identification : Int
  flags : Int
  fragmentOffset : Int
  ttl : Int
  protocol : Int
  checksum : Int
  srcIP : String
  dstIP : String
  data : List Nat
deriving DecidableEq

/-- The six TCP control flag booleans of parseTCPSegment. -/
structure TCPFlags where
  urg : Bool
  ack : Bool
  psh : Bool
  rst : Bool
  syn : Bool
  fin : Bool
deriving DecidableEq

/-- Result record of parseTCPSegment. -/
structure TCPSegment where
  srcPort : Int
  dstPort : Int
  seqNum : Int
  ackNum : Int
  dataOffset : Int
  flags : TCPFlags
  windowSize : Int
  tcpChecksum : Int
  urgentPointer : Int
  data : List Nat
deriving DecidableEq

/-- parseEthernetFrame from src/index.js. The two-argument constant slices
slice(0,6), slice(6,12) and slice(14) are take/drop on the list. -/
def parseEthernetFrame (bytes : List Nat) : Except String EthernetFrame :=
  if bytes.length < 14 then Except.error "Frame too short for valid Ethernet header"
  else Except.ok
    { destMAC := bytesToMAC (bytes.take 6)
      srcMAC := bytesToMAC ((bytes.drop 6).take 6)
      type := jsOr (jsShl (bget bytes 12) 8) (bget bytes 13)
      data := bytes.drop 14 }

/-- parseIPv4Packet from src/index.js. -/
def parseIPv4Packet (bytes : List Nat) : Except String IPv4Packet :=
  if bytes.length < 20 then Except.error "Packet too short for valid IPv4 header"
  else Except.ok
    { version := jsShr (bget bytes 0) 4
      ihl := jsAnd (bget bytes 0) 0x0F
      dscp := jsShr (bget bytes 1) 2
      ecn := jsAnd (bget bytes 1) 0x03
      totalLength := jsOr (jsShl (bget bytes 2) 8) (bget bytes 3)
      identification := jsOr (jsShl (bget bytes 4) 8) (bget bytes 5)
      flags := jsShr (bget bytes 6) 5
      fragmentOffset := jsOr (jsShl (jsAnd (bget bytes 6) 0x1F) 8) (bget bytes 7)
      ttl := bget bytes 8
      protocol := bget bytes 9
      checksum := jsOr (jsShl (bget bytes 10) 8) (bget bytes 11)
      srcIP := bytesToIP ((bytes.drop 12).take 4)
      dstIP := bytesToIP ((bytes.drop 16).take 4)
      data := jsSliceFrom bytes (jsAnd (bget bytes 0) 0x0F * 4) }

/-- parseTCPSegment from src/index.js. -/
def parseTCPSegment (bytes : List Nat) : Except String TCPSegment :=
  if bytes.length < 20 then Except.error "Segment too short for valid TCP header"
  else
    let flagBits := jsAnd (bget bytes 13) 0x3F
    Except.ok
    { srcPort := jsOr (jsShl (bget bytes 0) 8) (bget bytes 1)
      dstPort := jsOr (jsShl (bget bytes 2) 8) (bget bytes 3)
      seqNum := jsOr (jsOr (jsOr (jsShl (bget bytes 4) 24) (jsShl (bget bytes 5) 16))
        (jsShl (bget bytes 6) 8)) (bget bytes 7)
      ackNum := jsOr (jsOr (jsOr (jsShl (bget bytes 8) 24) (jsShl (bget bytes 9) 16))
        (jsShl (bget bytes 10) 8)) (bget bytes 11)
      dataOffset := jsShr (bget bytes 12) 4
      flags :=
        { urg := jsAnd flagBits 0x20 != 0
          ack := jsAnd flagBits 0x10 != 0
          psh := jsAnd flagBits 0x08 != 0
          rst := jsAnd flagBits 0x04 != 0
          syn := jsAnd flagBits 0x02 != 0
          fin := jsAnd flagBits 0x01 != 0 }
      windowSize := jsOr (jsShl (bget bytes 14) 8) (bget bytes 15)
      tcpChecksum := jsOr (jsShl (bget bytes 16) 8) (bget bytes 17)
      urgentPointer := jsOr (jsShl (bget bytes 18) 8) (bget bytes 19)
      data := jsSliceFrom bytes (jsShr (bget bytes 12) 4 * 4) }

/-- Outcome of one run of the main function on an already decoded byte
buffer: the early frame-too-short return, the two unsupported-tag stops
(each carrying every layer decoded so far), full decode, or an uncaught
exception thrown by a parser. -/
inductive PipelineResult where
  | tooShort : PipelineResult
  | stoppedAtEthernet : EthernetFrame → PipelineResult
  | stoppedAtIPv4 : EthernetFrame → IPv4Packet → PipelineResult
  | decoded : EthernetFrame → IPv4Packet → TCPSegment → PipelineResult
  | uncaught : String → PipelineResult
deriving DecidableEq

/-- The layer dispatch of the main function in src/index.js, from the byte
buffer onward. -/
def runPipeline (bytes : List Nat) : PipelineResult :=
  if bytes.length < 14 then PipelineResult.tooShort
  else
    match parseEthernetFrame bytes with
    | Except.error e => PipelineResult.uncaught e
    | Except.ok eth =>
      if eth.type ≠ 0x0800 then PipelineResult.stoppedAtEthernet eth
      else
        match parseIPv4Packet eth.data with
        | Except.error e => PipelineResult.uncaught e
        | Except.ok ip =>
          if ip.protocol ≠ 6 then PipelineResult.stoppedAtIPv4 eth ip
          else
            match parseTCPSegment ip.data with
            | Except.error e => PipelineResult.uncaught e
            | Except.ok tcp => PipelineResult.decoded eth ip tcp

/-! Bridge lemmas between the JavaScript 32-bit operators and plain
natural-number arithmetic, for operands that are single bytes or 16-bit
combinations, plus small list-indexing facts. -/

lemma toUint32_natCast (b : Nat) (hb : b < two32) : toUint32 (b : Int) = b := by
  unfold toUint32 two32 at *
  omega

lemma asInt32_of_lt (n : Nat) (h : n < two31) : asInt32 n = (n : Int) := by
  unfold asInt32 two32 two31 at *
  rw [Nat.mod_eq_of_lt (by omega), if_pos (by omega)]

lemma jsOr_natCast (a b : Nat) (ha : a < two31) (hb : b < two31) :
    jsOr (a : Int) (b : Int) = ((Nat.lor a b : Nat) : Int) := by
  unfold jsOr
  rw [toUint32_natCast a (by unfold two31 two32 at *; omega),
    toUint32_natCast b (by unfold two31 two32 at *; omega)]
  apply asInt32_of_lt
  have h31 : two31 = 2 ^ 31 := by unfold two31; norm_num
  rw [h31] at ha hb ⊢
  exact Nat.or_lt_two_pow ha hb

lemma jsShl8_byte : ∀ b : Nat, b < 256 → jsShl (b : Int) 8 = ((b * 256 : Nat) : Int) := by
  decide

lemma jsOr16 (a b : Nat) (ha : a < 256) (hb : b < 256) :
    jsOr ((a * 256 : Nat) : Int) (b : Int) = ((a * 256 + b : Nat) : Int) := by
  rw [jsOr_natCast _ _ (by unfold two31; omega) (by unfold two31; omega)]
  congr 1
  rw [show a * 256 = 2 ^ 8 * a by ring]
  exact (Nat.mul_add_lt_is_or (by omega) a).symm

/-- The 16-bit big-endian combination pattern of the source, as plain
arithmetic on byte values. -/
lemma or16_field (x y : Nat) (hx : x < 256) (hy : y < 256) :
    jsOr (jsShl (x : Int) 8) (y : Int) = ((x * 256 + y : Nat) : Int) := by
  rw [jsShl8_byte x hx, jsOr16 x y hx hy]

lemma jsShr4_byte : ∀ b : Nat, b < 256 → jsShr (b : Int) 4 = ((b / 16 : Nat) : Int) := by
  decide

lemma jsShr2_byte : ∀ b : Nat, b < 256 → jsShr (b : Int) 2 = ((b / 4 : Nat) : Int) := by
  decide

lemma jsShr5_byte : ∀ b : Nat, b < 256 → jsShr (b : Int) 5 = ((b / 32 : Nat) : Int) := by
  decide

lemma jsAnd15_byte : ∀ b : Nat, b < 256 → jsAnd (b : Int) 15 = ((b % 16 : Nat) : Int) := by
  decide

lemma jsAnd3_byte : ∀ b : Nat, b < 256 → jsAnd (b : Int) 3 = ((b % 4 : Nat) : Int) := by
  decide

lemma jsAnd31_byte : ∀ b : Nat, b < 256 → jsAnd (b : Int) 31 = ((b % 32 : Nat) : Int) := by
  decide

lemma getD_byte_lt (l : List Nat) (h : ∀ b ∈ l, b < 256) (i : Nat) : l.getD i 0 < 256 := by
  rw [List.getD_eq_getElem?_getD]
  cases e : l[i]? with
  | none => simp
  | some x => simpa using h x (List.getElem?_mem e)

lemma getD_drop (l : List Nat) (m i : Nat) : (l.drop m).getD i 0 = l.getD (m + i) 0 := by
  rw [List.getD_eq_getElem?_getD, List.getD_eq_getElem?_getD, List.getElem?_drop]

lemma bget_drop (l : List Nat) (m i : Nat) : bget (l.drop m) i = bget l (m + i) := by
  unfold bget
  rw [getD_drop]

lemma jsSliceFrom_natCast (l : List Nat) (k : Nat) : jsSliceFrom l ((k : Nat) : Int) = l.drop k := by
  unfold jsSliceFrom
  rw [if_neg (by omega)]
  simp

/-- C4: for every buffer of at least 20 byte values, parseIPv4Packet extracts
version as the high nibble of byte 0, headerLengthWords (ihl) as the low
nibble of byte 0, dscp as the high 6 bits of byte 1, ecn as the low 2 bits of
byte 1, flags as the top 3 bits of the big-endian 16-bit value at bytes 6 and
7, fragmentOffset as its remaining 13 bits, ttl from byte 8, protocol from
byte 9, headerChecksum as the big-endian 16-bit value at bytes 10 and 11, and
the payload as the view of the buffer starting at offset ihl times 4. -/
theorem ipv4_field_extraction (bytes : List Nat) (h20 : 20 ≤ bytes.length)
    (hb : ∀ b ∈ bytes, b < 256) :
    ∃ p, parseIPv4Packet bytes = Except.ok p
      ∧ p.version = ((bytes.getD 0 0 / 16 : Nat) : Int)
      ∧ p.ihl = ((bytes.getD 0 0 % 16 : Nat) : Int)
      ∧ p.dscp = ((bytes.getD 1 0 / 4 : Nat) : Int)
      ∧ p.ecn = ((bytes.getD 1 0 % 4 : Nat) : Int)
      ∧ p.flags = (((bytes.getD 6 0 * 256 + bytes.getD 7 0) / 8192 : Nat) : Int)
      ∧ p.fragmentOffset = (((bytes.getD 6 0 * 256 + bytes.getD 7 0) % 8192 : Nat) : Int)
      ∧ p.ttl = ((bytes.getD 8 0 : Nat) : Int)
      ∧ p.protocol = ((bytes.getD 9 0 : Nat) : Int)
      ∧ p.checksum = ((bytes.getD 10 0 * 256 + bytes.getD 11 0 : Nat) : Int)
      ∧ p.data = bytes.drop (bytes.getD 0 0 % 16 * 4) := by
  have hlt : ¬ bytes.length < 20 := by omega
  have hby : ∀ i, bytes.getD i 0 < 256 := getD_byte_lt bytes hb
  refine ⟨_, by unfold parseIPv4Packet; rw [if_neg hlt], ?_, ?_, ?_, ?_, ?_, ?_, ?_, ?_, ?_, ?_⟩
  · exact jsShr4_byte _ (hby 0)
  · exact jsAnd15_byte _ (hby 0)
  · exact jsShr2_byte _ (hby 1)
  · exact jsAnd3_byte _ (hby 1)
  · show jsShr (bget bytes 6) 5 = _
    unfold bget
    rw [jsShr5_byte _ (hby 6)]
    have h6 := hby 6
    have h7 := hby 7
    congr 1
    omega
  · show jsOr (jsShl (jsAnd (bget bytes 6) 0x1F) 8) (bget bytes 7) = _
    unfold bget
    rw [jsAnd31_byte _ (hby 6),
      or16_field _ _ (by omega) (hby 7)]
    have h6 := hby 6
    have h7 := hby 7
    congr 1
    omega
  · rfl
  · rfl
  · exact or16_field _ _ (hby 10) (hby 11)
  · show jsSliceFrom bytes (jsAnd (bget bytes 0) 0x0F * 4) = _
    unfold bget
    rw [jsAnd15_byte _ (hby 0),
      show ((bytes.getD 0 0 % 16 : Nat) : Int) * 4 = ((bytes.getD 0 0 % 16 * 4 : Nat) : Int)
        by push_cast; ring]
    exact jsSliceFrom_natCast bytes _

/-- Example IPv4 header buffer used to instantiate the field-extraction
theorem. -/
def ipv4Ex : List Nat :=
  [0x45, 0x83, 0x01, 0x02, 0x03, 0x04, 0xE5, 0x37, 64, 6, 0xAB, 0xCD,
   1, 2, 3, 4, 5, 6, 7, 8, 0xDE, 0xAD, 0xBE, 0xEF]

/-- Witness: the field-extraction theorem applied to a concrete header. -/
theorem ipv4_field_extraction_witness :
    ∃ p, parseIPv4Packet ipv4Ex = Except.ok p ∧ p.version = 4 ∧ p.ihl = 5
      ∧ p.flags = 7 ∧ p.fragmentOffset = 1335 ∧ p.data = [0xDE, 0xAD, 0xBE, 0xEF] := by
  obtain ⟨p, hp, hv, hi, _, _, hf, hfo, _, _, _, hd⟩ :=
    ipv4_field_extraction ipv4Ex (by decide) (by decide)
  exact ⟨p, hp, by rw [hv]; decide, by rw [hi]; decide, by rw [hf]; decide,
    by rw [hfo]; decide, by rw [hd]; decide⟩

/-- C5: parseEthernetFrame fails with the frame-truncation error exactly when
the buffer is shorter than 14 bytes (in which case the pipeline stops without
attempting any further layer), parseIPv4Packet fails with the
packet-truncation error exactly when its buffer is shorter than 20 bytes,
parseTCPSegment fails with the segment-truncation error exactly when its
buffer is shorter than 20 bytes, and each parser succeeds on any buffer
meeting its minimum length. -/
theorem truncation_behavior (bytes : List Nat) :
    ((∃ f, parseEthernetFrame bytes = Except.ok f) ↔ 14 ≤ bytes.length)
    ∧ (bytes.length < 14 →
        parseEthernetFrame bytes = Except.error "Frame too short for valid Ethernet header"
        ∧ runPipeline bytes = PipelineResult.tooShort)
    ∧ ((∃ p, parseIPv4Packet bytes = Except.ok p) ↔ 20 ≤ bytes.length)
    ∧ (bytes.length < 20 →
        parseIPv4Packet bytes = Except.error "Packet too short for valid IPv4 header")
    ∧ ((∃ t, parseTCPSegment bytes = Except.ok t) ↔ 20 ≤ bytes.length)
    ∧ (bytes.length < 20 →
        parseTCPSegment bytes = Except.error "Segment too short for valid TCP header") := by
  refine ⟨?_, ?_, ?_, ?_, ?_, ?_⟩
  · by_cases h : bytes.length < 14
    · simp only [parseEthernetFrame, if_pos h]
      constructor
      · rintro ⟨f, hf⟩; cases hf
      · omega
    · simp only [parseEthernetFrame, if_neg h]
      exact ⟨fun _ => by omega, fun _ => ⟨_, rfl⟩⟩
  · intro h
    exact ⟨by simp only [parseEthernetFrame, if_pos h],
      by simp only [runPipeline, if_pos h]⟩
  · by_cases h : bytes.length < 20
    · simp only [parseIPv4Packet, if_pos h]
      constructor
      · rintro ⟨p, hp⟩; cases hp
      · omega
    · simp only [parseIPv4Packet, if_neg h]
      exact ⟨fun _ => by omega, fun _ => ⟨_, rfl⟩⟩
  · intro h
    simp only [parseIPv4Packet, if_pos h]
  · by_cases h : bytes.length < 20
    · simp only [parseTCPSegment, if_pos h]
      constructor
      · rintro ⟨t, ht⟩; cases ht
      · omega
    · simp only [parseTCPSegment, if_neg h]
      exact ⟨fun _ => by omega, fun _ => ⟨_, rfl⟩⟩
  · intro h
    simp only [parseTCPSegment, if_pos h]

/-- Witness: the truncation theorem applied to a concrete 3-byte buffer. -/
theorem truncation_behavior_witness :
    parseEthernetFrame [1, 2, 3] = Except.error "Frame too short for valid Ethernet header"
    ∧ runPipeline [1, 2, 3] = PipelineResult.tooShort :=
  (truncation_behavior [1, 2, 3]).2.1 (by decide)

/-- C7: for every buffer of at least 20 byte values, both parseIPv4Packet and
parseTCPSegment succeed, their payload start offsets ihl times 4 and
dataOffset times 4 are never negative, and whenever such an offset exceeds
the buffer length the returned payload is empty rather than the parse
failing or the slice underflowing. -/
theorem payload_offset_clamp (bytes : List Nat) (h20 : 20 ≤ bytes.length)
    (hb : ∀ b ∈ bytes, b < 256) :
    ∃ p t, parseIPv4Packet bytes = Except.ok p ∧ parseTCPSegment bytes = Except.ok t
      ∧ 0 ≤ p.ihl * 4 ∧ 0 ≤ t.dataOffset * 4
      ∧ ((bytes.length : Int) < p.ihl * 4 → p.data = [])
      ∧ ((bytes.length : Int) < t.dataOffset * 4 → t.data = []) := by
  have hlt : ¬ bytes.length < 20 := by omega
  have hby : ∀ i, bytes.getD i 0 < 256 := getD_byte_lt bytes hb
  refine ⟨_, _, by unfold parseIPv4Packet; rw [if_neg hlt],
    by unfold parseTCPSegment; rw [if_neg hlt], ?_, ?_, ?_, ?_⟩
  · show 0 ≤ jsAnd (bget bytes 0) 0x0F * 4
    unfold bget
    rw [jsAnd15_byte _ (hby 0)]
    positivity
  · show 0 ≤ jsShr (bget bytes 12) 4 * 4
    unfold bget
    rw [jsShr4_byte _ (hby 12)]
    positivity
  · show (bytes.length : Int) < jsAnd (bget bytes 0) 0x0F * 4 →
      jsSliceFrom bytes (jsAnd (bget bytes 0) 0x0F * 4) = []
    unfold bget
    rw [jsAnd15_byte _ (hby 0),
      show ((bytes.getD 0 0 % 16 : Nat) : Int) * 4 = ((bytes.getD 0 0 % 16 * 4 : Nat) : Int)
        by push_cast; ring, jsSliceFrom_natCast bytes _]
    intro hoff
    refine List.drop_eq_nil_of_le ?_
    exact_mod_cast le_of_lt hoff
  · show (bytes.length : Int) < jsShr (bget bytes 12) 4 * 4 →
      jsSliceFrom bytes (jsShr (bget bytes 12) 4 * 4) = []
    unfold bget
    rw [jsShr4_byte _ (hby 12),
      show ((bytes.getD 12 0 / 16 : Nat) : Int) * 4 = ((bytes.getD 12 0 / 16 * 4 : Nat) : Int)
        by push_cast; ring, jsSliceFrom_natCast bytes _]
    intro hoff
    refine List.drop_eq_nil_of_le ?_
    exact_mod_cast le_of_lt hoff

/-- Example header-only buffer whose ihl field (15 words, 60 bytes) and
dataOffset field (15 words, 60 bytes) both exceed the 20-byte buffer. -/
def clampEx : List Nat :=
  [0x4F, 0, 0, 0, 0, 0, 0, 0, 0, 0, 0, 0, 0xF0, 0, 0, 0, 0, 0, 0, 0]

/-- Witness: the clamping theorem applied to a concrete header-only buffer
whose header-length fields point past the end of the buffer. -/
theorem payload_offset_clamp_witness :
    ∃ p t, parseIPv4Packet clampEx = Except.ok p ∧ parseTCPSegment clampEx = Except.ok t
      ∧ p.data = [] ∧ t.data = [] := by
  obtain ⟨p, t, hp, ht, _, _, hpc, htc⟩ := payload_offset_clamp clampEx (by decide) (by decide)
  have hihl : p.ihl = 15 := by
    have h2 := hp
    unfold parseIPv4Packet at h2
    rw [if_neg (by decide)] at h2
    cases h2
    decide
  have hdoff : t.dataOffset = 15 := by
    have h2 := ht
    unfold parseTCPSegment at h2
    rw [if_neg (by decide)] at h2
    cases h2
    decide
  exact ⟨p, t, hp, ht, hpc (by rw [hihl]; decide), htc (by rw [hdoff]; decide)⟩

/-- C9: for every buffer of at least 20 byte values, parseIPv4Packet and
parseTCPSegment succeed without validating any field value (in particular
they accept version values other than 4 and header word counts below 5), and
when the word count is below 5 the returned payload slice begins inside the
20-byte header, so its first byte is a header byte of the buffer. -/
theorem no_field_validation (bytes : List Nat) (h20 : 20 ≤ bytes.length)
    (hb : ∀ b ∈ bytes, b < 256) :
    ∃ p t, parseIPv4Packet bytes = Except.ok p ∧ parseTCPSegment bytes = Except.ok t
      ∧ (p.ihl.toNat < 5 → p.ihl.toNat * 4 < 20 ∧ p.data ≠ []
          ∧ p.data.getD 0 0 = bytes.getD (p.ihl.toNat * 4) 0)
      ∧ (t.dataOffset.toNat < 5 → t.dataOffset.toNat * 4 < 20 ∧ t.data ≠ []
          ∧ t.data.getD 0 0 = bytes.getD (t.dataOffset.toNat * 4) 0) := by
  have hlt : ¬ bytes.length < 20 := by omega
  have hby : ∀ i, bytes.getD i 0 < 256 := getD_byte_lt bytes hb
  refine ⟨_, _, by unfold parseIPv4Packet; rw [if_neg hlt],
    by unfold parseTCPSegment; rw [if_neg hlt], ?_, ?_⟩
  · dsimp only
    unfold bget
    rw [jsAnd15_byte _ (hby 0),
      show ((bytes.getD 0 0 % 16 : Nat) : Int) * 4 = ((bytes.getD 0 0 % 16 * 4 : Nat) : Int)
        by push_cast; ring,
      jsSliceFrom_natCast bytes _, Int.toNat_ofNat]
    intro h5
    refine ⟨by omega, ?_, ?_⟩
    · rw [← List.length_pos, List.length_drop]
      omega
    · rw [getD_drop, Nat.add_zero]
  · dsimp only
    unfold bget
    rw [jsShr4_byte _ (hby 12),
      show ((bytes.getD 12 0 / 16 : Nat) : Int) * 4 = ((bytes.getD 12 0 / 16 * 4 : Nat) : Int)
        by push_cast; ring,
      jsSliceFrom_natCast bytes _, Int.toNat_ofNat]
    intro h5
    refine ⟨by omega, ?_, ?_⟩
    · rw [← List.length_pos, List.length_drop]
      omega
    · rw [getD_drop, Nat.add_zero]

/-- Example buffer whose IPv4 version field is 6 and whose header word counts
(ihl 4, dataOffset 4) lie below the valid range. -/
def shortHeaderEx : List Nat :=
  [0x64, 0, 0, 0, 0, 0, 0, 0, 0, 0, 0, 0, 0x40, 0, 0, 0, 0, 0, 0, 0, 99]

/-- Witness: the no-validation theorem applied to a concrete buffer with
version 6 and word counts 4, whose payload starts at offset 16, inside the
20-byte header. -/
theorem no_field_validation_witness :
    ∃ p t, parseIPv4Packet shortHeaderEx = Except.ok p
      ∧ parseTCPSegment shortHeaderEx = Except.ok t
      ∧ p.data ≠ [] ∧ p.data.getD 0 0 = shortHeaderEx.getD 16 0
      ∧ t.data ≠ [] ∧ t.data.getD 0 0 = shortHeaderEx.getD 16 0 := by
  obtain ⟨p, t, hp, ht, hpc, htc⟩ := no_field_validation shortHeaderEx (by decide) (by decide)
  have hihl : p.ihl = 4 := by
    have h2 := hp
    unfold parseIPv4Packet at h2
    rw [if_neg (by decide)] at h2
    cases h2
    decide
  have hdoff : t.dataOffset = 4 := by
    have h2 := ht
    unfold parseTCPSegment at h2
    rw [if_neg (by decide)] at h2
    cases h2
    decide
  obtain ⟨-, hne, hhd⟩ := hpc (by rw [hihl]; decide)
  obtain ⟨-, hne2, hhd2⟩ := htc (by rw [hdoff]; decide)
  rw [hihl] at hhd
  rw [hdoff] at hhd2
  exact ⟨p, t, hp, ht, hne, by simpa using hhd, hne2, by simpa using hhd2⟩

/-- C6: the pipeline runs the IPv4 parser only when the decoded etherType
equals 0x0800 and runs the TCP parser only when additionally the decoded
IPv4 protocol equals 6; on a non-matching tag it stops at that layer while
still returning every layer already successfully decoded. -/
theorem pipeline_dispatch (bytes : List Nat) (f : EthernetFrame)
    (hf : parseEthernetFrame bytes = Except.ok f) :
    (f.type ≠ 0x0800 → runPipeline bytes = PipelineResult.stoppedAtEthernet f)
    ∧ (∀ p : IPv4Packet, f.type = 0x0800 → parseIPv4Packet f.data = Except.ok p →
        p.protocol ≠ 6 → runPipeline bytes = PipelineResult.stoppedAtIPv4 f p)
    ∧ (∀ p t, f.type = 0x0800 → parseIPv4Packet f.data = Except.ok p →
        p.protocol = 6 → parseTCPSegment p.data = Except.ok t →
        runPipeline bytes = PipelineResult.decoded f p t) := by
  have h14 : ¬ bytes.length < 14 := by
    intro h
    rw [parseEthernetFrame, if_pos h] at hf
    cases hf
  refine ⟨?_, ?_, ?_⟩
  · intro hne
    unfold runPipeline
    rw [if_neg h14, hf]
    dsimp only
    rw [if_pos hne]
  · intro p htype hip hproto
    unfold runPipeline
    rw [if_neg h14, hf]
    dsimp only
    rw [if_neg (by simp [htype]), hip]
    dsimp only
    rw [if_pos hproto]
  · intro p t htype hip hproto htcp
    unfold runPipeline
    rw [if_neg h14, hf]
    dsimp only
    rw [if_neg (by simp [htype]), hip]
    dsimp only
    rw [if_neg (by simp [hproto]), htcp]

/-- Scenario A buffer: a 14-byte Ethernet frame with etherType 0x88B5. -/
def ethOnlyEx : List Nat :=
  [0xFF, 0xFF, 0xFF, 0xFF, 0xFF, 0xFF, 0xAA, 0xAA, 0xAA, 0xAA, 0xAA, 0xAA, 0x88, 0xB5]

/-- Witness: the dispatch theorem applied to a frame with a non-IPv4
etherType, whose pipeline run stops at the Ethernet layer. -/
theorem pipeline_dispatch_witness :
    ∃ f, parseEthernetFrame ethOnlyEx = Except.ok f
      ∧ runPipeline ethOnlyEx = PipelineResult.stoppedAtEthernet f := by
  have hf : parseEthernetFrame ethOnlyEx = Except.ok
      { destMAC := bytesToMAC (ethOnlyEx.take 6)
        srcMAC := bytesToMAC ((ethOnlyEx.drop 6).take 6)
        type := jsOr (jsShl (bget ethOnlyEx 12) 8) (bget ethOnlyEx 13)
        data := ethOnlyEx.drop 14 } := by
    unfold parseEthernetFrame
    rw [if_neg (by decide)]
  exact ⟨_, hf, (pipeline_dispatch ethOnlyEx _ hf).1 (by decide)⟩

/-- C1: for every buffer of byte values of length at least 54 whose etherType
field decodes to 0x0800, whose IPv4 protocol field decodes to 6, and whose
header word counts are in range with 14 plus 4 times ihl plus 4 times
dataOffset at most the buffer length, the pipeline succeeds at all three
layers and the TCP payload length equals the input length minus that sum. -/
theorem pipeline_full_decode (bytes : List Nat) (hb : ∀ b ∈ bytes, b < 256)
    (h54 : 54 ≤ bytes.length)
    (htype : bytes.getD 12 0 * 256 + bytes.getD 13 0 = 0x0800)
    (hihl5 : 5 ≤ bytes.getD 14 0 % 16)
    (hihl15 : bytes.getD 14 0 % 16 ≤ 15)
    (hproto : bytes.getD 23 0 = 6)
    (hdoff5 : 5 ≤ bytes.getD (26 + bytes.getD 14 0 % 16 * 4) 0 / 16)
    (hdoff15 : bytes.getD (26 + bytes.getD 14 0 % 16 * 4) 0 / 16 ≤ 15)
    (hlen : 14 + bytes.getD 14 0 % 16 * 4
        + bytes.getD (26 + bytes.getD 14 0 % 16 * 4) 0 / 16 * 4 ≤ bytes.length) :
    ∃ f p t, runPipeline bytes = PipelineResult.decoded f p t
      ∧ t.data.length = bytes.length
        - (14 + bytes.getD 14 0 % 16 * 4
           + bytes.getD (26 + bytes.getD 14 0 % 16 * 4) 0 / 16 * 4) := by
  have hby : ∀ i, bytes.getD i 0 < 256 := getD_byte_lt bytes hb
  have h14 : ¬ bytes.length < 14 := by omega
  have heth : parseEthernetFrame bytes = Except.ok
      { destMAC := bytesToMAC (bytes.take 6)
        srcMAC := bytesToMAC ((bytes.drop 6).take 6)
        type := jsOr (jsShl (bget bytes 12) 8) (bget bytes 13)
        data := bytes.drop 14 } := by
    unfold parseEthernetFrame
    rw [if_neg h14]
  have hlen2 : ¬ (bytes.drop 14).length < 20 := by
    rw [List.length_drop]
    omega
  unfold runPipeline
  rw [if_neg h14, heth]
  dsimp only
  have htypeval : jsOr (jsShl (bget bytes 12) 8) (bget bytes 13) = (0x0800 : Int) := by
    unfold bget
    rw [or16_field _ _ (hby 12) (hby 13), htype]
    norm_num
  rw [if_neg (by simp [htypeval])]
  have hip : parseIPv4Packet (bytes.drop 14) = Except.ok
      { version := jsShr (bget (bytes.drop 14) 0) 4
        ihl := jsAnd (bget (bytes.drop 14) 0) 0x0F
        dscp := jsShr (bget (bytes.drop 14) 1) 2
        ecn := jsAnd (bget (bytes.drop 14) 1) 0x03
        totalLength := jsOr (jsShl (bget (bytes.drop 14) 2) 8) (bget (bytes.drop 14) 3)
        identification := jsOr (jsShl (bget (bytes.drop 14) 4) 8) (bget (bytes.drop 14) 5)
        flags := jsShr (bget (bytes.drop 14) 6) 5
        fragmentOffset := jsOr (jsShl (jsAnd (bget (bytes.drop 14) 6) 0x1F) 8)
          (bget (bytes.drop 14) 7)
        ttl := bget (bytes.drop 14) 8
        protocol := bget (bytes.drop 14) 9
        checksum := jsOr (jsShl (bget (bytes.drop 14) 10) 8) (bget (bytes.drop 14) 11)
        srcIP := bytesToIP (((bytes.drop 14).drop 12).take 4)
        dstIP := bytesToIP (((bytes.drop 14).drop 16).take 4)
        data := jsSliceFrom (bytes.drop 14) (jsAnd (bget (bytes.drop 14) 0) 0x0F * 4) } := by
    unfold parseIPv4Packet
    rw [if_neg hlen2]
  rw [hip]
  dsimp only
  have hprotoval : bget (bytes.drop 14) 9 = (6 : Int) := by
    rw [bget_drop]
    show ((bytes.getD 23 0 : Nat) : Int) = 6
    rw [hproto]
    norm_num
  rw [if_neg (by simp [hprotoval])]
  have hipdata : jsSliceFrom (bytes.drop 14) (jsAnd (bget (bytes.drop 14) 0) 0x0F * 4)
      = bytes.drop (14 + bytes.getD 14 0 % 16 * 4) := by
    rw [bget_drop]
    show jsSliceFrom (bytes.drop 14) (jsAnd ((bytes.getD 14 0 : Nat) : Int) 0x0F * 4) = _
    rw [jsAnd15_byte _ (hby 14),
      show ((bytes.getD 14 0 % 16 : Nat) : Int) * 4 = ((bytes.getD 14 0 % 16 * 4 : Nat) : Int)
        by push_cast; ring,
      jsSliceFrom_natCast, List.drop_drop]
  rw [hipdata]
  have hlen3 : ¬ (bytes.drop (14 + bytes.getD 14 0 % 16 * 4)).length < 20 := by
    rw [List.length_drop]
    omega
  have htcp : parseTCPSegment (bytes.drop (14 + bytes.getD 14 0 % 16 * 4)) = Except.ok
      { srcPort := jsOr (jsShl (bget (bytes.drop (14 + bytes.getD 14 0 % 16 * 4)) 0) 8)
          (bget (bytes.drop (14 + bytes.getD 14 0 % 16 * 4)) 1)
        dstPort := jsOr (jsShl (bget (bytes.drop (14 + bytes.getD 14 0 % 16 * 4)) 2) 8)
          (bget (bytes.drop (14 + bytes.getD 14 0 % 16 * 4)) 3)
        seqNum := jsOr (jsOr (jsOr (jsShl (bget (bytes.drop (14 + bytes.getD 14 0 % 16 * 4)) 4) 24)
          (jsShl (bget (bytes.drop (14 + bytes.getD 14 0 % 16 * 4)) 5) 16))
          (jsShl (bget (bytes.drop (14 + bytes.getD 14 0 % 16 * 4)) 6) 8))
          (bget (bytes.drop (14 + bytes.getD 14 0 % 16 * 4)) 7)
        ackNum := jsOr (jsOr (jsOr (jsShl (bget (bytes.drop (14 + bytes.getD 14 0 % 16 * 4)) 8) 24)
          (jsShl (bget (bytes.drop (14 + bytes.getD 14 0 % 16 * 4)) 9) 16))
          (jsShl (bget (bytes.drop (14 + bytes.getD 14 0 % 16 * 4)) 10) 8))
          (bget (bytes.drop (14 + bytes.getD 14 0 % 16 * 4)) 11)
        dataOffset := jsShr (bget (bytes.drop (14 + bytes.getD 14 0 % 16 * 4)) 12) 4
        flags :=
          { urg := jsAnd (jsAnd (bget (bytes.drop (14 + bytes.getD 14 0 % 16 * 4)) 13) 0x3F) 0x20 != 0
            ack := jsAnd (jsAnd (bget (bytes.drop (14 + bytes.getD 14 0 % 16 * 4)) 13) 0x3F) 0x10 != 0
            psh := jsAnd (jsAnd (bget (bytes.drop (14 + bytes.getD 14 0 % 16 * 4)) 13) 0x3F) 0x08 != 0
            rst := jsAnd (jsAnd (bget (bytes.drop (14 + bytes.getD 14 0 % 16 * 4)) 13) 0x3F) 0x04 != 0
            syn := jsAnd (jsAnd (bget (bytes.drop (14 + bytes.getD 14 0 % 16 * 4)) 13) 0x3F) 0x02 != 0
            fin := jsAnd (jsAnd (bget (bytes.drop (14 + bytes.getD 14 0 % 16 * 4)) 13) 0x3F) 0x01 != 0 }
        windowSize := jsOr (jsShl (bget (bytes.drop (14 + bytes.getD 14 0 % 16 * 4)) 14) 8)
          (bget (bytes.drop (14 + bytes.getD 14 0 % 16 * 4)) 15)
        tcpChecksum := jsOr (jsShl (bget (bytes.drop (14 + bytes.getD 14 0 % 16 * 4)) 16) 8)
          (bget (bytes.drop (14 + bytes.getD 14 0 % 16 * 4)) 17)
        urgentPointer := jsOr (jsShl (bget (bytes.drop (14 + bytes.getD 14 0 % 16 * 4)) 18) 8)
          (bget (bytes.drop (14 + bytes.getD 14 0 % 16 * 4)) 19)
        data := jsSliceFrom (bytes.drop (14 + bytes.getD 14 0 % 16 * 4))
          (jsShr (bget (bytes.drop (14 + bytes.getD 14 0 % 16 * 4)) 12) 4 * 4) } := by
    unfold parseTCPSegment
    rw [if_neg hlen3]
  rw [htcp]
  refine ⟨_, _, _, rfl, ?_⟩
  dsimp only
  have hdget : bget (bytes.drop (14 + bytes.getD 14 0 % 16 * 4)) 12
      = ((bytes.getD (26 + bytes.getD 14 0 % 16 * 4) 0 : Nat) : Int) := by
    rw [bget_drop]
    unfold bget
    rw [show 14 + bytes.getD 14 0 % 16 * 4 + 12 = 26 + bytes.getD 14 0 % 16 * 4 by ring]
  rw [hdget, jsShr4_byte _ (hby _),
    show ((bytes.getD (26 + bytes.getD 14 0 % 16 * 4) 0 / 16 : Nat) : Int) * 4
      = ((bytes.getD (26 + bytes.getD 14 0 % 16 * 4) 0 / 16 * 4 : Nat) : Int)
      by push_cast; ring,
    jsSliceFrom_natCast, List.drop_drop, List.length_drop]

/-- Scenario B buffer: 14 Ethernet bytes with etherType 0x0800, a 20-byte
IPv4 header with ihl 5 and protocol 6, and a 20-byte TCP header with
dataOffset 5; 54 bytes in total. -/
def fullEx : List Nat :=
  [0x11, 0x11, 0x11, 0x11, 0x11, 0x11, 0x22, 0x22, 0x22, 0x22, 0x22, 0x22, 0x08, 0x00,
   0x45, 0x00, 0x00, 0x28, 0x00, 0x00, 0x00, 0x00, 64, 6, 0x00, 0x00,
   10, 0, 0, 1, 10, 0, 0, 2,
   0x00, 0x50, 0x01, 0xBB, 0, 0, 0, 1, 0, 0, 0, 2, 0x50, 0x18, 0xFF, 0xFF, 0, 0, 0, 0]

/-- Witness: the full-decode theorem applied to the 54-byte Scenario B
buffer, which decodes at all three layers with an empty TCP payload. -/
theorem pipeline_full_decode_witness :
    ∃ f p t, runPipeline fullEx = PipelineResult.decoded f p t ∧ t.data.length = 0 := by
  obtain ⟨f, p, t, hd, hl⟩ := pipeline_full_decode fullEx (by decide) (by decide) (by decide)
    (by decide) (by decide) (by decide) (by decide) (by decide) (by decide)
  exact ⟨f, p, t, hd, by rw [hl]; decide⟩

/-- Concrete TCP header whose sequence-number and acknowledgment-number
fields have the top bit of their first byte set. -/
def seqBugEx : List Nat :=
  [0, 0, 0, 0, 0x80, 0, 0, 0, 0x80, 0, 0, 0, 0, 0, 0, 0, 0, 0, 0, 0]

/-- C3 (evaluation at the failing input): on a 20-byte TCP header whose byte
4 and byte 8 are 0x80, parseTCPSegment returns negative sequence and
acknowledgment numbers, while the unsigned big-endian value of bytes 4 to 7
is 2147483648; the 32-bit combination in the source is signed, not unsigned. -/
theorem tcp_seqnum_sign_bug :
    ∃ t, parseTCPSegment seqBugEx = Except.ok t
      ∧ t.seqNum = -2147483648 ∧ t.ackNum = -2147483648 ∧ t.seqNum < 0
      ∧ seqBugEx.getD 4 0 * 16777216 + seqBugEx.getD 5 0 * 65536
          + seqBugEx.getD 6 0 * 256 + seqBugEx.getD 7 0 = 2147483648 := by
  refine ⟨_, by unfold parseTCPSegment; rw [if_neg (by decide)], ?_, ?_, ?_, ?_⟩ <;> decide

/-- Length of the chunked match list: one chunk per two characters, with a
lone final character forming its own chunk. -/
lemma chunk12_length (cs : List Char) (h : ∀ c ∈ cs, isLineTerm c = false) :
    (chunk12 cs).length = (cs.length + 1) / 2 := by
  induction cs using chunk12.induct with
  | case1 => rfl
  | case2 c rest hterm ih =>
    rw [h c (List.mem_cons_self c rest)] at hterm
    cases hterm
  | case3 c hterm =>
    simp only [chunk12]
    rw [if_neg hterm]
    simp
  | case4 c hterm c2 rest2 hterm2 ih =>
    rw [h c2 (List.mem_cons_of_mem c (List.mem_cons_self c2 rest2))] at hterm2
    cases hterm2
  | case5 c hterm c2 rest2 hterm2 ih =>
    have hrest : ∀ x ∈ rest2, isLineTerm x = false := fun x hx =>
      h x (List.mem_cons_of_mem c (List.mem_cons_of_mem c2 hx))
    simp only [chunk12]
    rw [if_neg hterm, if_neg hterm2]
    simp only [List.length_cons]
    rw [ih hrest]
    omega

/-- C2 (counterexample): the cleaned odd-length input "abcde" (from the
scenario input "AB CD E" after the main function strips whitespace and
lowercases) does not fail: hexToBytes returns the three bytes 0xAB, 0xCD
and 0x0E, the lone trailing digit becoming its own byte. -/
theorem odd_hex_decodes :
    hexToBytes "abcde" = some [some 171, some 205, some 14]
    ∧ hexToBytes "abcde" ≠ none := by
  constructor
  · decide
  · decide

/-- C2 (amended): hexToBytes never fails on a nonempty input without line
terminators, odd lengths included: it returns one entry per two characters,
rounding up. -/
theorem hexToBytes_never_fails (s : String) (hne : s.data ≠ [])
    (hnl : ∀ c ∈ s.data, isLineTerm c = false) :
    ∃ l, hexToBytes s = some l ∧ l.length = (s.data.length + 1) / 2 := by
  have hlen := chunk12_length s.data hnl
  have hpos : 0 < s.data.length := List.length_pos.mpr hne
  have hchne : chunk12 s.data ≠ [] := by
    intro hc
    rw [hc] at hlen
    simp only [List.length_nil] at hlen
    omega
  obtain ⟨a, as, hc⟩ : ∃ a as, chunk12 s.data = a :: as := by
    cases hcc : chunk12 s.data with
    | nil => exact absurd hcc hchne
    | cons a as => exact ⟨a, as, rfl⟩
  refine ⟨(a :: as).map jsParseIntHex, ?_, ?_⟩
  · unfold hexToBytes jsMatchChunks
    rw [hc]
    rfl
  · rw [List.length_map, ← hc, hlen]

/-- Witness: the amended hex-decoder theorem applied to the three-character
input "abc", which decodes to two entries. -/
theorem hexToBytes_never_fails_witness :
    ∃ l, hexToBytes "abc" = some l ∧ l.length = 2 := by
  obtain ⟨l, hl, hlen⟩ := hexToBytes_never_fails "abc" (by decide) (by decide)
  exact ⟨l, hl, by rw [hlen]; decide⟩

/-- C10: on the empty string, or any input that is entirely whitespace once
the main function's replace call has stripped it, hexToBytes neither
returns an empty buffer nor fails in a controlled way: the match call
returns null and the map call throws a TypeError, modelled as none. -/
theorem whitespace_hex_typeerror (s : String) (h : ∀ c ∈ s.data, isJsSpace c = true) :
    hexToBytes (stripSpaces s) = none ∧ hexToBytes (stripSpaces s) ≠ some [] := by
  have hdata : (stripSpaces s).data = [] := by
    show s.data.filter (fun c => !isJsSpace c) = []
    rw [List.filter_eq_nil_iff]
    intro a ha
    simp [h a ha]
  have heq : hexToBytes (stripSpaces s) = none := by
    unfold hexToBytes jsMatchChunks
    rw [hdata]
    rfl
  exact ⟨heq, by rw [heq]; simp⟩

/-- Witness: the TypeError theorem applied to a whitespace-only input. -/
theorem whitespace_hex_typeerror_witness :
    hexToBytes (stripSpaces " ") = none ∧ hexToBytes (stripSpaces " ") ≠ some [] :=
  whitespace_hex_typeerror " " (by decide)

lemma mk_data (s : String) : String.mk s.data = s := rfl

/-- Facts about the two-character uppercase rendering of one byte: its
length, the absence of line terminators, and that parseInt base 16 recovers
the byte. -/
lemma hexPair_facts : ∀ b : Nat, b < 256 →
    (hexPairUpper b).data.length = 2
      ∧ (∀ c ∈ (hexPairUpper b).data, isLineTerm c = false)
      ∧ jsParseIntHex (hexPairUpper b) = some ((b : Nat) : Int) := by
  decide

/-- Chunking a concatenation of two-character terminator-free strings
recovers exactly those strings. -/
lemma chunk12_join_pairs (ps : List (List Char))
    (h : ∀ p ∈ ps, p.length = 2 ∧ ∀ c ∈ p, isLineTerm c = false) :
    chunk12 ps.flatten = ps.map String.mk := by
  induction ps with
  | nil => rfl
  | cons p rest ih =>
    obtain ⟨hlen2, hnt⟩ := h p (List.mem_cons_self p rest)
    obtain ⟨c1, c2, rfl⟩ := List.length_eq_two.mp hlen2
    have h1 : isLineTerm c1 = false := hnt c1 (by simp)
    have h2 : isLineTerm c2 = false := hnt c2 (by simp)
    have hrest : ∀ q ∈ rest, q.length = 2 ∧ ∀ c ∈ q, isLineTerm c = false :=
      fun q hq => h q (List.mem_cons_of_mem _ hq)
    simp only [List.flatten_cons, List.cons_append, List.nil_append, List.map_cons]
    simp only [chunk12]
    rw [if_neg (by simp [h1]), if_neg (by simp [h2]), ih hrest]

/-- Twelve-hex-digit uppercase string representation of a 6-byte hardware
address: the concatenation of the two-digit renderings of its bytes. -/
def macHexString (bs : List Nat) : String :=
  String.mk (bs.map (fun b => (hexPairUpper b).data)).flatten

/-- C8: for every 6-byte sequence, decoding its 12-hex-digit string
representation with hexToBytes recovers exactly the original bytes, and
formatting with bytesToMAC renders them as the colon-separated uppercase
hex pairs: the two functions are inverse up to case and separator
normalization. -/
theorem mac_hex_roundtrip (bs : List Nat) (h6 : bs.length = 6) (hb : ∀ b ∈ bs, b < 256) :
    hexToBytes (macHexString bs) = some (bs.map (fun b => some ((b : Nat) : Int)))
    ∧ bytesToMAC bs = String.intercalate ":" (bs.map hexPairUpper) := by
  have hch : chunk12 (macHexString bs).data = bs.map hexPairUpper := by
    show chunk12 (bs.map (fun b => (hexPairUpper b).data)).flatten = _
    rw [chunk12_join_pairs]
    · rw [List.map_map]
      exact List.map_congr_left (fun b _ => mk_data _)
    · intro p hp
      obtain ⟨b, hbb, rfl⟩ := List.mem_map.mp hp
      obtain ⟨hl2, hnt, -⟩ := hexPair_facts b (hb b hbb)
      exact ⟨hl2, hnt⟩
  obtain ⟨b0, rest, rfl⟩ : ∃ b0 rest, bs = b0 :: rest := by
    cases bs with
    | nil => simp at h6
    | cons a as => exact ⟨a, as, rfl⟩
  have hmatch : jsMatchChunks (macHexString (b0 :: rest))
      = some ((b0 :: rest).map hexPairUpper) := by
    unfold jsMatchChunks
    rw [hch]
    simp only [List.map_cons]
  constructor
  · calc hexToBytes (macHexString (b0 :: rest))
        = some (((b0 :: rest).map hexPairUpper).map jsParseIntHex) := by
          unfold hexToBytes
          rw [hmatch]
          rfl
      _ = some ((b0 :: rest).map (fun b => some ((b : Nat) : Int))) := by
          rw [List.map_map]
          exact congrArg some (List.map_congr_left
            (fun b hbb => (hexPair_facts b (hb b hbb)).2.2))
  · rfl

/-- Example 6-byte hardware address for the round-trip witness. -/
def macEx : List Nat := [0, 1, 171, 205, 239, 255]

/-- Witness: the round-trip theorem applied to a concrete address, together
with the rendered string of that address. -/
theorem mac_hex_roundtrip_witness :
    hexToBytes (macHexString macEx)
      = some [some 0, some 1, some 171, some 205, some 239, some 255]
    ∧ bytesToMAC macEx = "00:01:AB:CD:EF:FF" := by
  obtain ⟨h1, -⟩ := mac_hex_roundtrip macEx (by decide) (by decide)
  exact ⟨by rw [h1]; decide, by decide⟩

end PacketDecode
